import Mathlib

/-!
Verification of the natural-language specification of
`src/platform/core/src/services/MeasurementService/MeasurementService.js`
against a shallow embedding of that file in Lean 4.

The embedding models JS objects with string keys as association lists that
preserve insertion order (property update keeps the key position, property
creation appends the key), which matches the enumeration order JS guarantees
for non-numeric string keys.  Thrown JS exceptions are modelled with
`Except String`, `undefined` with `Option`, and the side effects of the
service (log lines, synchronous callback invocations) as explicit output
lists.
-/

set_option autoImplicit false

namespace MeasurementServiceSpec

/-- A JS primitive value as it can appear in a measurement field. -/
inductive JSVal where
  | str (s : String)
  | num (n : Int)
  | boolean (b : Bool)
  | undef
deriving DecidableEq, Repr

/-- JS truthiness of a value (empty string, zero, false and undefined are falsy). -/
def JSVal.truthy : JSVal → Bool
  | .str s => decide (s ≠ "")
  | .num n => decide (n ≠ 0)
  | .boolean b => b
  | .undef => false

/-- JS string coercion, as applied when a value is used as a property key. -/
def JSVal.toKey : JSVal → String
  | .str s => s
  | .num n => toString n
  | .boolean b => if b then "true" else "false"
  | .undef => "undefined"

/-- A JS object with primitive-valued fields, as an insertion-ordered
association list of its own enumerable properties. -/
abbrev Obj := List (String × JSVal)

/-- Property read `o[k]`: first (and, for objects built by property
assignment, only) binding of key `k`; `none` models `undefined`. -/
def jget {α : Type} : List (String × α) → String → Option α
  | [], _ => none
  | (k2, v) :: rest, k => if k2 = k then some v else jget rest k

/-- Property write `o[k] = v`: replaces the binding in place when the key is
present, appends it otherwise — exactly the JS key-order behaviour. -/
def jset {α : Type} : List (String × α) → String → α → List (String × α)
  | [], k, v => [(k, v)]
  | (k2, v2) :: rest, k, v =>
    if k2 = k then (k, v) :: rest else (k2, v2) :: jset rest k v

/-- `Object.keys(o)`: the keys in insertion order. -/
abbrev jkeys {α : Type} (l : List (String × α)) : List String :=
  l.map Prod.fst

@[simp]
theorem jget_nil {α : Type} (k : String) : jget ([] : List (String × α)) k = none := rfl

@[simp]
theorem jget_jset_self {α : Type} (l : List (String × α)) (k : String) (v : α) :
    jget (jset l k v) k = some v := by
  induction l with
  | nil => simp [jget, jset]
  | cons p rest ih =>
    obtain ⟨k2, v2⟩ := p
    by_cases h : k2 = k
    · simp [jget, jset, h]
    · simp [jget, jset, h, ih]

theorem jget_jset_ne {α : Type} (l : List (String × α)) (k k2 : String) (v : α)
    (h : k2 ≠ k) : jget (jset l k v) k2 = jget l k2 := by
  induction l with
  | nil => simp [jget, jset, Ne.symm h]
  | cons p rest ih =>
    obtain ⟨k3, v3⟩ := p
    by_cases h3 : k3 = k
    · subst h3
      simp [jget, jset, Ne.symm h]
    · by_cases h4 : k3 = k2
      · simp [jget, jset, h3, h4, h, Ne.symm h]
      · simp [jget, jset, h3, h4, ih]

theorem jkeys_jset {α : Type} (l : List (String × α)) (k : String) (v : α) :
    jkeys (jset l k v) = if (jget l k).isSome then jkeys l else jkeys l ++ [k] := by
  induction l with
  | nil => simp [jkeys, jget, jset]
  | cons p rest ih =>
    obtain ⟨k2, v2⟩ := p
    by_cases h : k2 = k
    · simp [jkeys, jget, jset, h]
    · by_cases h2 : (jget rest k).isSome
      · simp [jkeys, jget, jset, h, h2] at ih ⊢
        exact ih
      · simp [jkeys, jget, jset, h, h2] at ih ⊢
        exact ih

theorem jget_mem {α : Type} {l : List (String × α)} {k : String} {v : α}
    (h : jget l k = some v) : (k, v) ∈ l := by
  induction l with
  | nil => simp [jget] at h
  | cons p rest ih =>
    obtain ⟨k2, v2⟩ := p
    by_cases h2 : k2 = k
    · subst h2
      simp [jget] at h
      subst h
      exact List.mem_cons_self _ _
    · simp [jget, h2] at h
      exact List.mem_cons_of_mem _ (ih h)

theorem mem_jset {α : Type} {l : List (String × α)} {k : String} {v : α}
    {x : String × α} (h : x ∈ jset l k v) : x ∈ l ∨ x = (k, v) := by
  induction l with
  | nil => simp [jset] at h; simp [h]
  | cons p rest ih =>
    obtain ⟨k2, v2⟩ := p
    by_cases h2 : k2 = k
    · simp [jset, h2] at h
      rcases h with h | h
      · right; simp [h]
      · left; exact List.mem_cons_of_mem _ h
    · simp [jset, h2] at h
      rcases h with h | h
      · left; simp [h]
      · rcases ih h with h3 | h3
        · left; exact List.mem_cons_of_mem _ h3
        · right; exact h3

/-- In a map with no duplicate keys, a member of `jset l k v` whose key is
`k` must be the freshly written pair. -/
theorem mem_jset_nodup {α : Type} {l : List (String × α)} {k : String} {v : α}
    {x : String × α} (hnd : (jkeys l).Nodup) (h : x ∈ jset l k v) :
    (x ∈ l ∧ x.1 ≠ k) ∨ x = (k, v) := by
  induction l with
  | nil => simp [jset] at h; simp [h]
  | cons p rest ih =>
    obtain ⟨k2, v2⟩ := p
    simp only [jkeys, List.map_cons, List.nodup_cons] at hnd
    by_cases h2 : k2 = k
    · subst h2
      simp [jset] at h
      rcases h with h | h
      · right; simp [h]
      · left
        refine ⟨List.mem_cons_of_mem _ h, ?_⟩
        intro hx
        exact hnd.1 (hx ▸ List.mem_map_of_mem Prod.fst h)
    · simp [jset, h2] at h
      rcases h with h | h
      · left
        refine ⟨by simp [h], ?_⟩
        simp [h, h2]
      · rcases ih (by simpa [jkeys] using hnd.2) h with h3 | h3
        · exact Or.inl ⟨List.mem_cons_of_mem _ h3.1, h3.2⟩
        · exact Or.inr h3

theorem jget_none_of_not_mem_keys {α : Type} {l : List (String × α)} {k : String}
    (h : k ∉ jkeys l) : jget l k = none := by
  induction l with
  | nil => rfl
  | cons p rest ih =>
    obtain ⟨k2, v2⟩ := p
    simp only [jkeys, List.map_cons, List.mem_cons] at h
    push_neg at h
    simp [jget, Ne.symm h.1, ih (by simpa [jkeys] using h.2)]

theorem jkeys_ne_nil_of_jget_some {α : Type} {l : List (String × α)} {k : String}
    {v : α} (h : jget l k = some v) : jkeys l ≠ [] := by
  cases l with
  | nil => simp [jget] at h
  | cons p rest => simp [jkeys]

/-! ## The module-level event registry and the measurement schema -/

/-- The module-level `EVENTS` object of `MeasurementService.js`:
two built-in event tokens keyed by their symbolic names. -/
def EVENTS : List (String × String) :=
  [("MEASUREMENT_UPDATED", "event::measurement_updated"),
   ("MEASUREMENT_ADDED", "event::measurement_added")]

/-- The `MEASUREMENT_SCHEMA_KEYS` list of `_isValidMeasurement`. -/
def MEASUREMENT_SCHEMA_KEYS : List String :=
  ["id", "sopInstanceUID", "frameOfReferenceUID", "referenceSeriesUID",
   "label", "description", "type", "unit", "area", "points",
   "source", "sourceToolType"]

/-! ## Service state -/

/-- An entry of a subscriber list: `{ id: listenerId, callback }`.  The
callback function itself is identified by an abstract token `callback`; the
Notifier invokes it by emitting a `Notif` carrying that token. -/
structure Listener where
  id : String
  callback : String
deriving DecidableEq, Repr

/-- One synchronous callback invocation performed by the Notifier:
listener entry id, callback token, and the single argument passed
(`undefined` modelled as `none`). -/
structure Notif where
  lid : String
  cb : String
  arg : Option Obj
deriving DecidableEq, Repr

/-- The state of one `MeasurementService` instance:
`measurements` is the Record Store (`context -> id -> record`),
`listeners` the Subscription Table
(`context -> eventName -> array-or-undefined of listeners`, where a key
mapped to `none` models a property explicitly set to `undefined`),
`events` the view this instance has of the Event Registry, and `gc` the counter of
the process-wide unique-id generator (`guid()` returns `gs gc` for a
generator function `gs` and then increments `gc`). -/
structure SState where
  measurements : List (String × List (String × Obj))
  listeners : List (String × List (String × Option (List Listener)))
  events : List (String × String)
  gc : Nat
deriving DecidableEq, Repr

/-- `new MeasurementService()`: empty stores, registry seeded from `EVENTS`. -/
def newService : SState :=
  { measurements := [], listeners := [], events := EVENTS, gc := 0 }

/-! ## Validation helpers -/

/-- The body of the per-key closure inside `_isValidMeasurement`: emits a
warning for an unrecognized key and evaluates to `return false` (`some
false`) for it.  `forEach` discards the second component, which is why the
`return false` has no effect on `_isValidMeasurement`. -/
def validKeyCheck (key : String) : List String × Option Bool :=
  if MEASUREMENT_SCHEMA_KEYS.contains key then ([], none)
  else (["Invalid measurement key: " ++ key], some false)

/-- `_isValidMeasurement`: iterates the keys with `forEach` (whose callback
results are discarded) and then returns `true`.  First component: the
returned boolean; second: the warnings logged. -/
def isValidMeasurement (m : Obj) : Bool × List String :=
  ((jkeys m).map (fun k => (validKeyCheck k).1)).flatten |> fun warns => (true, warns)

/-- `_isValidEvent`: the name must be among `Object.values(this.events)`. -/
def isValidEvent (events : List (String × String)) (eventName : String) : Bool :=
  (events.map Prod.snd).contains eventName

/-! ## Notifier -/

/-- `_broadcastChange(measurementId, eventName, context)`: invoked by
`addOrUpdate` after the write (so the context sub-tables exist).
`hasListeners` is `Object.keys(this.listeners[context]).length > 0` (keys
explicitly set to `undefined` still count); `hasCallbacks` is
`Array.isArray(this.listeners[context][eventName])`.  When both hold, every
listener of the list is invoked in order with
`this.measurements[context][measurementId]` as sole argument. -/
def broadcastChange (s : SState) (measurementId eventName context : String) :
    List Notif :=
  let ctxListeners := (jget s.listeners context).getD []
  let hasListeners := decide (0 < (jkeys ctxListeners).length)
  match jget ctxListeners eventName with
  | some (some callbacks) =>
    if hasListeners then
      callbacks.map (fun listener =>
        { lid := listener.id, cb := listener.callback,
          arg := jget ((jget s.measurements context).getD []) measurementId })
    else []
  | _ => []

/-! ## Write path -/

/-- The lazy-creation pattern `if (!this.x[context]) { this.x[context] = {} }`
(stored sub-objects are always truthy, so the test is key presence). -/
def lazyInit {β : Type} (l : List (String × List β)) (c : String) :
    List (String × List β) :=
  match jget l c with
  | none => jset l c []
  | some _ => l

theorem jget_lazyInit_self {β : Type} (l : List (String × List β)) (c : String) :
    jget (lazyInit l c) c = some ((jget l c).getD []) := by
  unfold lazyInit
  cases h : jget l c <;> simp [h, jget_jset_self]

theorem jget_lazyInit_ne {β : Type} (l : List (String × List β)) (c c2 : String)
    (h : c2 ≠ c) : jget (lazyInit l c) c2 = jget l c2 := by
  unfold lazyInit
  cases h2 : jget l c <;> simp [h2, jget_jset_ne _ _ _ _ h]

/-- The outcome of a non-throwing `addOrUpdate` call: the new state, the
returned value (`none` models `return;`, i.e. `undefined`), the
`(eventName, context)` pair passed to `_broadcastChange` when a broadcast
was raised, the synchronous callback invocations it performed, and the log
lines written. -/
structure WriteResult where
  state : SState
  ret : Option String
  raised : Option (String × String)
  notifs : List Notif
  warnings : List String
deriving DecidableEq, Repr

/-- `addOrUpdate(measurement, context = "all")`.  The argument is `none`
when the caller passes `null`/`undefined`, in which case the destructuring
`const { id } = measurement` throws a `TypeError` before anything else
happens.  `gs` is the unique-id generator and `now` the value of
`Math.floor(Date.now() / 1000)` at call time. -/
def addOrUpdate (gs : Nat → String) (now : Int) (s : SState)
    (measurement : Option Obj) (context : String) :
    Except String WriteResult :=
  match measurement with
  | none => Except.error "TypeError"
  | some m =>
    let idVal := (jget m "id").getD JSVal.undef
    let valid := isValidMeasurement m
    if valid.1 = false then
      Except.ok
        { state := s, ret := none, raised := none, notifs := [],
          warnings := valid.2 ++
            ["Attempting to add or update a invalid measurement in " ++
             context ++ " context. Exiting early."] }
    else
      let genNeeded := !idVal.truthy
      let internalId := if genNeeded then gs s.gc else idVal.toKey
      let gc1 := if genNeeded then s.gc + 1 else s.gc
      let warns1 :=
        if genNeeded then
          ["Measurement ID not set in " ++ context ++
           " context. Using generated UID: " ++ internalId]
        else []
      let newMeasurement :=
        jset (jset m "modifiedTimestamp" (JSVal.num now)) "id"
          (if genNeeded then JSVal.str internalId else idVal)
      let ms1 := lazyInit s.measurements context
      let ls1 := lazyInit s.listeners context
      let ctxTable := (jget ms1 context).getD []
      let existed := (jget ctxTable internalId).isSome
      let ms2 := jset ms1 context (jset ctxTable internalId newMeasurement)
      let s2 : SState :=
        { measurements := ms2, listeners := ls1, events := s.events, gc := gc1 }
      let ev := if existed then "event::measurement_updated"
                else "event::measurement_added"
      let warns2 :=
        if existed then
          ["Measurement already defined in " ++ context ++
           " context. Updating measurement."]
        else ["Measurement added in " ++ context ++ " context."]
      Except.ok
        { state := s2, ret := some internalId, raised := some (ev, context),
          notifs := broadcastChange s2 internalId ev context,
          warnings := valid.2 ++ warns1 ++ warns2 }

/-! ## Read path -/

/-- `_arrayOfObjects(obj)`: `Object.entries(obj).map(e => ({[e[0]]: e[1]}))`.
Enumerating the entries of `undefined` throws a `TypeError`. -/
def arrayOfObjects (obj : Option (List (String × Obj))) :
    Except String (List (List (String × Obj))) :=
  match obj with
  | none => Except.error "TypeError"
  | some entries => Except.ok (entries.map (fun e => [(e.1, e.2)]))

/-- `getMeasurements(context = "all")`. -/
def getMeasurements (s : SState) (context : Option String) :
    Except String (List (List (String × Obj))) :=
  arrayOfObjects (jget s.measurements (context.getD "all"))

/-- JS truthiness of the optional `context` argument of `getMeasurement`. -/
def ctxTruthy : Option String → Bool
  | some c => decide (c ≠ "")
  | none => false

/-- The `contexts.forEach` loop of `getMeasurement` when called without a
context: per context, `Object.keys(contextMeasurements[id])` throws a
`TypeError` when the context does not hold the id; otherwise the record
overwrites the accumulator when it has at least one key.  A thrown
exception propagates out of `forEach`, aborting the remaining iterations. -/
def scanContexts (id : String) :
    List (String × List (String × Obj)) → Option Obj → Except String (Option Obj)
  | [], acc => Except.ok acc
  | (_, contextMeasurements) :: rest, acc =>
    match jget contextMeasurements id with
    | none => Except.error "TypeError"
    | some r =>
      scanContexts id rest (if 0 < (jkeys r).length then some r else acc)

/-- `getMeasurement(id, context)`: with a truthy context, a direct
`this.measurements[context][id]` lookup (a `TypeError` when the context key
is absent); otherwise the linear scan over `Object.keys(this.measurements)`
in insertion order, returning the initial `null` (`none`) when the scan
never overwrites it. -/
def getMeasurement (s : SState) (id : String) (context : Option String) :
    Except String (Option Obj) :=
  if ctxTruthy context then
    match jget s.measurements (context.getD "") with
    | none => Except.error "TypeError"
    | some t => Except.ok (jget t id)
  else
    scanContexts id s.measurements none

/-! ## Subscription table -/

/-- `subscribe(eventName, callback, context = "all")`: validates the event
name against the registry, then lazily creates the context table and
appends `{ id: guid(), callback }` to the list of the event (creating a fresh
singleton list when the current value is not an array).  Returns the new
state together with either the minted listener id (to which the returned
disposer binds its single `unsubscribe()` operation) or the thrown
"unsupported event" error; the state is untouched on the throwing path. -/
def subscribe (gs : Nat → String) (s : SState) (eventName callback context : String) :
    SState × Except String String :=
  if isValidEvent s.events eventName then
    let listenerId := gs s.gc
    let ctxTable := (jget s.listeners context).getD []
    let newList :=
      match jget ctxTable eventName with
      | some (some l) => l ++ [{ id := listenerId, callback := callback }]
      | _ => [{ id := listenerId, callback := callback }]
    ({ s with
        listeners := jset s.listeners context (jset ctxTable eventName (some newList)),
        gc := s.gc + 1 },
     Except.ok listenerId)
  else
    (s, Except.error ("Event " ++ eventName ++ " not supported in " ++
                      context ++ " context."))

/-- `_unsubscribe(eventName, listenerId, context)` (reached only through the
disposer returned by `subscribe`): no-op when the context has no subscriber
table; when the value under the event is an array, filters out the entries whose
`id` equals `listenerId`; otherwise assigns `undefined` to the event key. -/
def unsubscribe (s : SState) (eventName listenerId context : String) : SState :=
  match jget s.listeners context with
  | none => s
  | some ctxTable =>
    match jget ctxTable eventName with
    | some (some l) =>
      { s with
          listeners := jset s.listeners context
            (jset ctxTable eventName
              (some (l.filter (fun x => decide (x.id ≠ listenerId))))) }
    | _ =>
      { s with
          listeners := jset s.listeners context (jset ctxTable eventName none) }

/-! ## Specification-side descriptions of the write path -/

/-- The id under which `addOrUpdate` files the record: the own `id` of the
measurement when that field is JS-truthy, the freshly minted guid otherwise. -/
def resolvedId (gs : Nat → String) (s : SState) (m : Obj) : String :=
  if ((jget m "id").getD JSVal.undef).truthy
  then ((jget m "id").getD JSVal.undef).toKey
  else gs s.gc

/-- The record actually stored: the input with `modifiedTimestamp` stamped
and `id` overwritten (by the original value when truthy, by the guid string
otherwise). -/
def newRecordOf (gs : Nat → String) (now : Int) (s : SState) (m : Obj) : Obj :=
  jset (jset m "modifiedTimestamp" (JSVal.num now)) "id"
    (if ((jget m "id").getD JSVal.undef).truthy then (jget m "id").getD JSVal.undef
     else JSVal.str (gs s.gc))

/-- The guid counter after one `addOrUpdate` (bumped only when a guid was
minted). -/
def gcAfter (s : SState) (m : Obj) : Nat :=
  if ((jget m "id").getD JSVal.undef).truthy then s.gc else s.gc + 1

/-- Whether a record under the resolved id already existed in the context
before the write. -/
def existedBefore (gs : Nat → String) (s : SState) (m : Obj) (c : String) : Bool :=
  (jget ((jget s.measurements c).getD []) (resolvedId gs s m)).isSome

/-- The event token `addOrUpdate` raises for this write. -/
def eventOf (gs : Nat → String) (s : SState) (m : Obj) (c : String) : String :=
  if existedBefore gs s m c then "event::measurement_updated"
  else "event::measurement_added"

/-- The subscriber list registered for `(context, eventName)` in a
Subscription Table ([] when the context has no table, the event has no key,
or the key holds `undefined`). -/
def subsOfL (L : List (String × List (String × Option (List Listener))))
    (context eventName : String) : List Listener :=
  match jget ((jget L context).getD []) eventName with
  | some (some l) => l
  | _ => []

/-- The subscriber list registered for `(context, eventName)` on the
instance. -/
def subscribersOf (s : SState) (context eventName : String) : List Listener :=
  subsOfL s.listeners context eventName

/-- The Record Store invariant: every record filed under context `c` and id
`i` carries `id = i`. -/
def storeInv (ms : List (String × List (String × Obj))) : Prop :=
  ∀ c t, jget ms c = some t → ∀ i r, jget t i = some r →
    jget r "id" = some (JSVal.str i)

/-- The `id` field of a measurement, when present, holds a string (the data
model of the specification; rules out exotic JS coercions of non-string
ids). -/
def idIsStr (m : Obj) : Bool :=
  match jget m "id" with
  | some (JSVal.str _) => true
  | some _ => false
  | none => true

/-- Characterization of `addOrUpdate` on an object input: it always succeeds
and its outcome is described componentwise by the helper functions above. -/
theorem addOrUpdate_some_ok (gs : Nat → String) (now : Int) (s : SState)
    (m : Obj) (c : String) :
    ∃ w, addOrUpdate gs now s (some m) c = Except.ok w ∧
      w.ret = some (resolvedId gs s m) ∧
      w.raised = some (eventOf gs s m c, c) ∧
      w.state.measurements =
        jset (lazyInit s.measurements c) c
          (jset ((jget s.measurements c).getD []) (resolvedId gs s m)
            (newRecordOf gs now s m)) ∧
      w.state.listeners = lazyInit s.listeners c ∧
      w.state.events = s.events ∧
      w.state.gc = gcAfter s m ∧
      w.notifs = broadcastChange w.state (resolvedId gs s m) (eventOf gs s m c) c := by
  refine ⟨_, rfl, ?_, ?_, ?_, ?_, ?_, ?_, ?_⟩ <;>
    by_cases hb : ((jget m "id").getD JSVal.undef).truthy <;>
      simp [addOrUpdate, isValidMeasurement, resolvedId, newRecordOf, gcAfter,
            existedBefore, eventOf, hb, jget_lazyInit_self]

/-- After a write that stored `newM` under `(c, rid)`, the Notifier invokes
exactly the subscribers registered for `(c, ev)` before the write, in list
order, each with the just-stored record as sole argument. -/
theorem broadcastChange_after_write (s s2 : SState) (c ev rid : String)
    (T : List (String × Obj)) (newM : Obj)
    (hls : s2.listeners = lazyInit s.listeners c)
    (hms : s2.measurements = jset (lazyInit s.measurements c) c (jset T rid newM)) :
    broadcastChange s2 rid ev c =
      (subscribersOf s c ev).map
        (fun l => { lid := l.id, cb := l.callback, arg := some newM }) := by
  unfold broadcastChange subscribersOf subsOfL
  rw [hls, hms, jget_lazyInit_self, jget_jset_self]
  simp only [Option.getD_some]
  cases hql : jget ((jget s.listeners c).getD []) ev with
  | none => simp
  | some v =>
    cases v with
    | none => simp
    | some callbacks =>
      have hk := jkeys_ne_nil_of_jget_some hql
      have hpos : 0 < (jkeys ((jget s.listeners c).getD [])).length := by
        cases h : jkeys ((jget s.listeners c).getD []) with
        | nil => exact absurd h hk
        | cons a l => simp
      simp [hpos, jget_jset_self]
      intro h
      rw [h] at hql
      simp [jget] at hql

/-! ## The operation language

A client interaction with one service instance, used to state the temporal
claims ("… for every subsequent operation").  Each step returns the next
state and the synchronous callback invocations it performed; read
operations never mutate the state or invoke callbacks (their results are
returned to the caller and do not feed back into the service). -/

inductive Op where
  | write (m : Option Obj) (now : Int) (c : String)
  | sub (e : String) (cb : String) (c : String)
  | unsub (e : String) (lid : String) (c : String)
  | readOne (id : String) (c : Option String)
  | readAll (c : Option String)

/-- One operation against the service.  A thrown `addOrUpdate` (null input)
aborts before any mutation, so the state is returned unchanged. -/
def step (gs : Nat → String) (s : SState) : Op → SState × List Notif
  | .write m now c =>
    match addOrUpdate gs now s m c with
    | Except.ok w => (w.state, w.notifs)
    | Except.error _ => (s, [])
  | .sub e cb c => ((subscribe gs s e cb c).1, [])
  | .unsub e lid c => (unsubscribe s e lid c, [])
  | .readOne _ _ => (s, [])
  | .readAll _ => (s, [])

/-- Run a sequence of operations, collecting every callback invocation. -/
def run (gs : Nat → String) (s : SState) : List Op → SState × List Notif
  | [] => (s, [])
  | op :: ops =>
    let r1 := step gs s op
    let r2 := run gs r1.1 ops
    (r2.1, r1.2 ++ r2.2)

/-! ## Claim C1 -/

/-- C1: `addOrUpdate(R, C)` stamps `modifiedTimestamp` with the current
second-resolution timestamp (overwriting any caller-supplied value),
resolves the id (the own `id` of the record when it carries one, a freshly
generated guid otherwise), and stores the record under `(C, resolved id)`
with its `id` field equal to that key, preserving the invariant that every
stored record has `id` equal to the id it is filed under; an existing record
with that id is replaced in place (same key set) and
`event::measurement_updated` is raised for `C`, otherwise the record is
appended and `event::measurement_added` is raised; the resolved id is
returned.  Hypothesis: the `id` field, when present, is a string (the data
model of the specification). -/
theorem addOrUpdate_write_contract (gs : Nat → String) (now : Int) (s : SState)
    (m : Obj) (c : String) (hid : idIsStr m = true) :
    ∃ w, addOrUpdate gs now s (some m) c = Except.ok w ∧
      w.ret = some (resolvedId gs s m) ∧
      (∃ t, jget w.state.measurements c = some t ∧
        jget t (resolvedId gs s m) = some (newRecordOf gs now s m) ∧
        jkeys t = (if existedBefore gs s m c = true
                   then jkeys ((jget s.measurements c).getD [])
                   else jkeys ((jget s.measurements c).getD []) ++
                     [resolvedId gs s m])) ∧
      jget (newRecordOf gs now s m) "id" =
        some (JSVal.str (resolvedId gs s m)) ∧
      jget (newRecordOf gs now s m) "modifiedTimestamp" =
        some (JSVal.num now) ∧
      w.raised = some (eventOf gs s m c, c) ∧
      (storeInv s.measurements → storeInv w.state.measurements) := by
  obtain ⟨w, hw, hret, hraised, hms, hls, hev, hgc, hnot⟩ :=
    addOrUpdate_some_ok gs now s m c
  have hidfield : jget (newRecordOf gs now s m) "id" =
      some (JSVal.str (resolvedId gs s m)) := by
    unfold newRecordOf resolvedId
    cases hq : jget m "id" with
    | none => simp [hq, JSVal.truthy, jget_jset_self]
    | some v =>
      cases v with
      | str str =>
        by_cases hb : (JSVal.str str).truthy <;>
          simp [hq, hb, JSVal.toKey, jget_jset_self]
      | num n => simp [idIsStr, hq] at hid
      | boolean b => simp [idIsStr, hq] at hid
      | undef => simp [hq, JSVal.truthy, jget_jset_self]
  refine ⟨w, hw, hret, ?_, hidfield, ?_, hraised, ?_⟩
  · refine ⟨jset ((jget s.measurements c).getD []) (resolvedId gs s m)
      (newRecordOf gs now s m), ?_, jget_jset_self _ _ _, ?_⟩
    · rw [hms, jget_jset_self]
    · rw [jkeys_jset]
      unfold existedBefore
      by_cases hex : (jget ((jget s.measurements c).getD [])
          (resolvedId gs s m)).isSome <;> simp [hex]
  · unfold newRecordOf
    rw [jget_jset_ne _ _ _ _ (by decide), jget_jset_self]
  · intro hInv
    rw [hms]
    intro c2 t2 h2 i r hir
    by_cases hc : c2 = c
    · subst hc
      rw [jget_jset_self] at h2
      cases h2
      by_cases hi : i = resolvedId gs s m
      · subst hi
        rw [jget_jset_self] at hir
        cases hir
        exact hidfield
      · rw [jget_jset_ne _ _ _ _ hi] at hir
        cases hq : jget s.measurements c2 with
        | none => rw [hq] at hir; simp [jget] at hir
        | some T0 =>
          rw [hq] at hir
          exact hInv c2 T0 hq i r hir
    · rw [jget_jset_ne _ _ _ _ hc, jget_lazyInit_ne _ _ _ hc] at h2
      exact hInv c2 t2 h2 i r hir

/-- A concrete measurement used by the witnesses. -/
def mEx : Obj := [("id", JSVal.str "m1"), ("label", JSVal.str "Lesion A")]

/-- A concrete unique-id generator used by the witnesses. -/
def gsEx : Nat → String := fun k => "guid-" ++ toString k

/-- Witness for C1 at a concrete input. -/
theorem addOrUpdate_write_contract_witness :
    idIsStr mEx = true ∧
    (∃ w, addOrUpdate gsEx 5 newService (some mEx) "all" = Except.ok w ∧
      w.ret = some (resolvedId gsEx newService mEx) ∧
      (∃ t, jget w.state.measurements "all" = some t ∧
        jget t (resolvedId gsEx newService mEx) =
          some (newRecordOf gsEx 5 newService mEx) ∧
        jkeys t = (if existedBefore gsEx newService mEx "all" = true
                   then jkeys ((jget newService.measurements "all").getD [])
                   else jkeys ((jget newService.measurements "all").getD []) ++
                     [resolvedId gsEx newService mEx])) ∧
      jget (newRecordOf gsEx 5 newService mEx) "id" =
        some (JSVal.str (resolvedId gsEx newService mEx)) ∧
      jget (newRecordOf gsEx 5 newService mEx) "modifiedTimestamp" =
        some (JSVal.num 5) ∧
      w.raised = some (eventOf gsEx newService mEx "all", "all") ∧
      (storeInv newService.measurements → storeInv w.state.measurements)) :=
  ⟨rfl, addOrUpdate_write_contract gsEx 5 newService mEx "all" rfl⟩

/-! ## Claim C2 -/

/-- C2: every write raising event `E` in context `C` synchronously invokes,
before `addOrUpdate` returns, each callback subscribed to `(C, E)` at the
time of the write, exactly once, in subscription order, with the
just-written stored record as sole argument (nothing is invoked when the
context or event has no subscribers, since `subscribersOf` is then empty);
read operations never invoke any callback. -/
theorem broadcast_sync_in_order (gs : Nat → String) (now : Int) (s : SState)
    (m : Obj) (c : String) :
    (∃ w, addOrUpdate gs now s (some m) c = Except.ok w ∧
       w.notifs = (subscribersOf s c (eventOf gs s m c)).map
         (fun l => { lid := l.id, cb := l.callback,
                     arg := some (newRecordOf gs now s m) })) ∧
    (∀ id2 oc, (step gs s (Op.readOne id2 oc)).2 = []) ∧
    (∀ oc, (step gs s (Op.readAll oc)).2 = []) := by
  obtain ⟨w, hw, hret, hraised, hms, hls, hev, hgc, hnot⟩ :=
    addOrUpdate_some_ok gs now s m c
  refine ⟨⟨w, hw, ?_⟩, fun id2 oc => rfl, fun oc => rfl⟩
  rw [hnot]
  exact broadcastChange_after_write s w.state c (eventOf gs s m c)
    (resolvedId gs s m) ((jget s.measurements c).getD [])
    (newRecordOf gs now s m) hls hms

/-! ## Claim C3 -/

/-- The warnings collected by the validation `forEach` are exactly one line
per unrecognized key. -/
theorem validation_warnings_eq (ks : List String) :
    (ks.map (fun k => (validKeyCheck k).1)).flatten =
      (ks.filter (fun k => !(MEASUREMENT_SCHEMA_KEYS.contains k))).map
        (fun k => "Invalid measurement key: " ++ k) := by
  induction ks with
  | nil => rfl
  | cons k rest ih =>
    by_cases h : k ∈ MEASUREMENT_SCHEMA_KEYS
    · have hv : (validKeyCheck k).1 = [] := by simp [validKeyCheck, h]
      simp [hv, ih, h]
    · have hv : (validKeyCheck k).1 = ["Invalid measurement key: " ++ k] := by
        simp [validKeyCheck, h]
      simp [hv, ih, h]

/-- C3: the key-set validation never rejects: `_isValidMeasurement` returns
`true` for every object, logging one warning per unrecognized key, and
`addOrUpdate` proceeds to store the record regardless (its early-exit
branch, which would return `undefined`, is unreachable for object inputs:
the call always succeeds with the resolved id as return value and the
record present in the store). -/
theorem validation_never_rejects (gs : Nat → String) (now : Int) (s : SState)
    (c : String) (m : Obj) :
    (isValidMeasurement m).1 = true ∧
    (isValidMeasurement m).2 =
      ((jkeys m).filter (fun k => !(MEASUREMENT_SCHEMA_KEYS.contains k))).map
        (fun k => "Invalid measurement key: " ++ k) ∧
    (∃ w, addOrUpdate gs now s (some m) c = Except.ok w ∧
       w.ret = some (resolvedId gs s m) ∧
       ∃ t, jget w.state.measurements c = some t ∧
         (jget t (resolvedId gs s m)).isSome = true) := by
  refine ⟨rfl, validation_warnings_eq (jkeys m), ?_⟩
  obtain ⟨w, hw, hret, hraised, hms, _⟩ := addOrUpdate_some_ok gs now s m c
  refine ⟨w, hw, hret, _, by rw [hms, jget_jset_self], ?_⟩
  rw [jget_jset_self]
  rfl

/-! ## Claim C4 (corrected) -/

/-- C4 counterexample: `addOrUpdate(null)` does not log-and-return — the
destructuring `const { id } = measurement` throws a `TypeError` to the
caller, so the claimed "no exception path" is false. -/
theorem addOrUpdate_null_throws :
    addOrUpdate gsEx 0 newService none "all" = Except.error "TypeError" := rfl

/-- C4 amended: `addOrUpdate` throws a `TypeError` to the caller when the
record is `null`/`undefined` (before validating or mutating anything), and
for every object record there is no silent no-op at all: the claimed
shape-check early exit is dead code, the call always succeeds and returns
the resolved id. -/
theorem addOrUpdate_exception_paths (gs : Nat → String) (now : Int)
    (s : SState) (c : String) :
    addOrUpdate gs now s none c = Except.error "TypeError" ∧
    (∀ m : Obj, ∃ w, addOrUpdate gs now s (some m) c = Except.ok w ∧
       w.ret = some (resolvedId gs s m)) := by
  refine ⟨rfl, fun m => ?_⟩
  obtain ⟨w, hw, hret, _⟩ := addOrUpdate_some_ok gs now s m c
  exact ⟨w, hw, hret⟩

/-! ## Claim C5 (corrected) -/

/-- A stored record with id "Y". -/
def rY : Obj := [("id", JSVal.str "Y"), ("modifiedTimestamp", JSVal.num 3)]

/-- A store holding one context `"a"` whose only record has id "Y". -/
def sC5 : SState :=
  { measurements := [("a", [("Y", rY)])], listeners := [], events := EVENTS,
    gc := 0 }

/-- C5 counterexample: a known context exists but holds no record with the
requested id; the claim says `getMeasurement("X")` returns null, but the
scan evaluates `Object.keys(contextMeasurements["X"])` on `undefined` and
throws a `TypeError` instead. -/
theorem getMeasurement_no_match_faults :
    getMeasurement sC5 "X" none = Except.error "TypeError" := rfl

/-- C5 amended: with no context argument and no known context holding a
matching record, `getMeasurement(id)` returns null only when the Record
Store holds no context at all; as soon as one known context exists, the
scan faults with a `TypeError` at the first context that lacks the id. -/
theorem getMeasurement_no_match (s : SState) (id : String)
    (h : ∀ p ∈ s.measurements, jget p.2 id = none) :
    getMeasurement s id none =
      if s.measurements = [] then Except.ok none
      else Except.error "TypeError" := by
  have hscan : getMeasurement s id none = scanContexts id s.measurements none := by
    simp [getMeasurement, ctxTruthy]
  rw [hscan]
  cases hm : s.measurements with
  | nil => simp [scanContexts]
  | cons p rest =>
    obtain ⟨c0, t0⟩ := p
    have h0 := h (c0, t0) (by rw [hm]; exact List.mem_cons_self _ _)
    simp [scanContexts, h0]

/-- Witness for the amended C5 at a concrete store. -/
theorem getMeasurement_no_match_witness :
    (∀ p ∈ sC5.measurements, jget p.2 "X" = none) ∧
    getMeasurement sC5 "X" none =
      (if sC5.measurements = [] then Except.ok none
       else Except.error "TypeError") :=
  ⟨by decide, getMeasurement_no_match sC5 "X" (by decide)⟩

/-! ## Claim C6 (corrected) -/

/-- Records with id "X" held by two different contexts, and an unrelated
record separating them. -/
def rXa : Obj := [("id", JSVal.str "X"), ("modifiedTimestamp", JSVal.num 1)]

def rXc : Obj := [("id", JSVal.str "X"), ("modifiedTimestamp", JSVal.num 2)]

def rZb : Obj := [("id", JSVal.str "Z"), ("modifiedTimestamp", JSVal.num 3)]

/-- A store where contexts "a" and "c" hold a record with id "X" but the
intervening context "b" does not. -/
def sC6 : SState :=
  { measurements :=
      [("a", [("X", rXa)]), ("b", [("Z", rZb)]), ("c", [("X", rXc)])],
    listeners := [], events := EVENTS, gc := 0 }

/-- C6 counterexample: more than one known context holds a record with id
"X", yet the scan does not run to completion and return the record of the last
holder — it throws a `TypeError` at context "b", which lacks the id. -/
theorem getMeasurement_two_holders_faults :
    getMeasurement sC6 "X" none = Except.error "TypeError" := rfl

/-- One step of the scan when the context holds the id. -/
theorem scanContexts_cons_some (id c0 : String) (t0 : List (String × Obj))
    (rest : List (String × List (String × Obj))) (acc : Option Obj) (r : Obj)
    (hr : jget t0 id = some r) :
    scanContexts id ((c0, t0) :: rest) acc =
      scanContexts id rest (if 0 < (jkeys r).length then some r else acc) := by
  simp [scanContexts, hr]

/-- When every visited context holds a (non-empty) record under the id, the
`forEach` scan keeps overwriting the accumulator and ends with the record
of the last context. -/
theorem scanContexts_all_present (id : String) :
    ∀ (l : List (String × List (String × Obj))) (acc : Option Obj)
      (p : String × List (String × Obj)),
      (∀ q ∈ l, ∃ r, jget q.2 id = some r ∧ 0 < (jkeys r).length) →
      l.getLast? = some p →
      scanContexts id l acc = Except.ok (jget p.2 id) := by
  intro l
  induction l with
  | nil => intro acc p h hl; simp at hl
  | cons q rest ih =>
    intro acc p h hl
    obtain ⟨c0, t0⟩ := q
    obtain ⟨p1, p2⟩ := p
    obtain ⟨r, hr, hk⟩ := h (c0, t0) (List.mem_cons_self _ _)
    cases hrest : rest with
    | nil =>
      subst hrest
      simp at hl
      obtain ⟨h1, h2⟩ := hl
      subst h1
      subst h2
      rw [scanContexts_cons_some id c0 t0 [] acc r hr, if_pos hk]
      simp [scanContexts, hr]
    | cons q2 rest2 =>
      rw [scanContexts_cons_some id c0 t0 (q2 :: rest2) acc r hr, if_pos hk,
        ← hrest]
      apply ih
      · intro q hq
        exact h q (List.mem_cons_of_mem _ hq)
      · rw [hrest] at hl
        rw [List.getLast?_cons_cons] at hl
        rw [hrest]
        exact hl

/-- C6 amended: the documented "last context visited wins, no short-circuit"
behaviour holds exactly when every known context holds a record with the
requested id (the scan visits the contexts in insertion order and returns
the record of the last one); if any known context lacks the id the scan faults
with a `TypeError` instead (see the counterexample). -/
theorem getMeasurement_last_context_wins (s : SState) (id : String)
    (h : ∀ q ∈ s.measurements, ∃ r, jget q.2 id = some r ∧ 0 < (jkeys r).length)
    (p : String × List (String × Obj))
    (hl : s.measurements.getLast? = some p) :
    getMeasurement s id none = Except.ok (jget p.2 id) := by
  have hscan : getMeasurement s id none = scanContexts id s.measurements none := by
    simp [getMeasurement, ctxTruthy]
  rw [hscan]
  exact scanContexts_all_present id s.measurements none p h hl

/-- A store where both contexts "a" and "b" hold a record with id "X". -/
def sC6all : SState :=
  { measurements := [("a", [("X", rXa)]), ("b", [("X", rXc)])],
    listeners := [], events := EVENTS, gc := 0 }

/-- Witness for the amended C6: with contexts "a" and "b" both holding id
"X", the later context "b" wins. -/
theorem getMeasurement_last_context_wins_witness :
    (∀ q ∈ sC6all.measurements,
       ∃ r, jget q.2 "X" = some r ∧ 0 < (jkeys r).length) ∧
    sC6all.measurements.getLast? = some ("b", [("X", rXc)]) ∧
    getMeasurement sC6all "X" none = Except.ok (jget [("X", rXc)] "X") :=
  ⟨by decide, rfl,
   getMeasurement_last_context_wins sC6all "X" (by decide)
     ("b", [("X", rXc)]) rfl⟩

/-! ## Claim C7 -/

/-- C7: for a context key present in the Record Store, `getMeasurements(C)`
returns one element per stored record, each wrapped as the single-entry
mapping from id to record (not the bare record), and the empty sequence
when the context holds no records; for an absent context key the call is a
`TypeError` fault (enumerating the entries of `undefined`), not an empty
result. -/
theorem getMeasurements_wrapping (s : SState) (c : String) :
    (∀ t, jget s.measurements c = some t →
       getMeasurements s (some c) =
         Except.ok (t.map (fun p => [(p.1, p.2)])) ∧
       (t.map (fun p : String × Obj => [(p.1, p.2)])).length = t.length ∧
       (t = [] → getMeasurements s (some c) = Except.ok [])) ∧
    (jget s.measurements c = none →
       getMeasurements s (some c) = Except.error "TypeError") := by
  constructor
  · intro t ht
    refine ⟨?_, List.length_map _ _, ?_⟩
    · simp [getMeasurements, arrayOfObjects, ht]
    · intro h0
      subst h0
      simp [getMeasurements, arrayOfObjects, ht]
  · intro h
    simp [getMeasurements, arrayOfObjects, h]

/-- Witness for C7: a present context returns wrapped entries, an absent
context faults. -/
theorem getMeasurements_wrapping_witness :
    getMeasurements sC5 (some "a") = Except.ok [[("Y", rY)]] ∧
    getMeasurements sC5 (some "zzz") = Except.error "TypeError" :=
  ⟨((getMeasurements_wrapping sC5 "a").1 [("Y", rY)] rfl).1,
   (getMeasurements_wrapping sC5 "zzz").2 rfl⟩

/-! ## Claim C8 -/

/-- C8: `subscribe(eventName, callback, context)` throws an error naming the
event and the context exactly when the event name is not among the values of
the Event Registry, leaving the whole state (in particular the Subscription
Table) unchanged; on success it appends `{subscriberId, callback}` to the
`(context, eventName)` list (creating the context table lazily), leaves
every other list untouched, and returns the minted subscriber id to which
the single `unsubscribe()` operation of the disposer is bound. -/
theorem subscribe_validates_and_appends (gs : Nat → String) (s : SState)
    (e cb c : String) :
    ((∃ msg, (subscribe gs s e cb c).2 = Except.error msg) ↔
       isValidEvent s.events e = false) ∧
    (isValidEvent s.events e = false →
       subscribe gs s e cb c =
         (s, Except.error ("Event " ++ e ++ " not supported in " ++ c ++
           " context."))) ∧
    (isValidEvent s.events e = true →
       (subscribe gs s e cb c).2 = Except.ok (gs s.gc) ∧
       subscribersOf (subscribe gs s e cb c).1 c e =
         subscribersOf s c e ++ [{ id := gs s.gc, callback := cb }] ∧
       (∀ c2 e2, c2 ≠ c ∨ e2 ≠ e →
          subscribersOf (subscribe gs s e cb c).1 c2 e2 =
            subscribersOf s c2 e2)) := by
  by_cases hv : isValidEvent s.events e = true
  · have hok : (subscribe gs s e cb c).2 = Except.ok (gs s.gc) := by
      simp [subscribe, hv]
    refine ⟨⟨?_, ?_⟩, ?_, fun _ => ⟨hok, ?_, ?_⟩⟩
    · rintro ⟨msg, hmsg⟩
      rw [hok] at hmsg
      cases hmsg
    · intro hf
      rw [hv] at hf
      simp at hf
    · intro hf
      rw [hv] at hf
      simp at hf
    · cases hq : jget ((jget s.listeners c).getD []) e with
      | none => simp [subscribe, hv, subscribersOf, subsOfL, hq]
      | some v =>
        cases v with
        | none => simp [subscribe, hv, subscribersOf, subsOfL, hq]
        | some l => simp [subscribe, hv, subscribersOf, subsOfL, hq]
    · intro c2 e2 hne
      have hl1 : (subscribe gs s e cb c).1.listeners =
          jset s.listeners c
            (jset ((jget s.listeners c).getD []) e
              (some (subscribersOf s c e ++
                [{ id := gs s.gc, callback := cb }]))) := by
        cases hq : jget ((jget s.listeners c).getD []) e with
        | none => simp [subscribe, hv, subscribersOf, subsOfL, hq]
        | some v =>
          cases v with
          | none => simp [subscribe, hv, subscribersOf, subsOfL, hq]
          | some l => simp [subscribe, hv, subscribersOf, subsOfL, hq]
      unfold subscribersOf subsOfL
      rw [hl1]
      by_cases hc : c2 = c
      · subst hc
        have he : e2 ≠ e := by
          rcases hne with hne | hne
          · exact absurd rfl hne
          · exact hne
        rw [jget_jset_self]
        simp only [Option.getD_some]
        rw [jget_jset_ne _ _ _ _ he]
      · rw [jget_jset_ne _ _ _ _ hc]
  · have hfalse : isValidEvent s.events e = false := by
      cases hb : isValidEvent s.events e
      · rfl
      · exact absurd hb hv
    have herr : subscribe gs s e cb c =
        (s, Except.error ("Event " ++ e ++ " not supported in " ++ c ++
          " context.")) := by
      simp [subscribe, hfalse]
    refine ⟨⟨fun _ => hfalse, fun _ => ⟨_, by rw [herr]⟩⟩, fun _ => herr,
      fun ht => absurd ht hv⟩

/-- Witness for C8: subscribing to the built-in added event on a fresh
service succeeds and appends the subscriber; subscribing to an unregistered
event fails with the state unchanged. -/
theorem subscribe_validates_and_appends_witness :
    (isValidEvent newService.events "event::measurement_added" = true →
       (subscribe gsEx newService "event::measurement_added" "cb1" "all").2 =
         Except.ok (gsEx newService.gc) ∧
       subscribersOf
           (subscribe gsEx newService "event::measurement_added" "cb1" "all").1
           "all" "event::measurement_added" =
         subscribersOf newService "all" "event::measurement_added" ++
           [{ id := gsEx newService.gc, callback := "cb1" }] ∧
       (∀ c2 e2, c2 ≠ "all" ∨ e2 ≠ "event::measurement_added" →
          subscribersOf
              (subscribe gsEx newService "event::measurement_added" "cb1"
                "all").1 c2 e2 =
            subscribersOf newService c2 e2)) ∧
    (isValidEvent newService.events "event::not_registered" = false →
       subscribe gsEx newService "event::not_registered" "cb1" "all" =
         (newService,
          Except.error ("Event " ++ "event::not_registered" ++
            " not supported in " ++ "all" ++ " context."))) :=
  ⟨(subscribe_validates_and_appends gsEx newService "event::measurement_added"
      "cb1" "all").2.2,
   (subscribe_validates_and_appends gsEx newService "event::not_registered"
      "cb1" "all").2.1⟩

/-! ## Claim C9: listener-id freedom machinery -/

/-- No entry of a subscriber-list value carries listener id `lid`
(`undefined` values vacuously qualify). -/
def entryFree (lid : String) : Option (List Listener) → Bool
  | some l => l.all (fun x => decide (x.id ≠ lid))
  | none => true

/-- No entry of a per-context table carries `lid`. -/
def tableFree (lid : String) (t : List (String × Option (List Listener))) : Bool :=
  t.all (fun q => entryFree lid q.2)

/-- No entry anywhere in a Subscription Table carries `lid`. -/
def listFree (lid : String)
    (L : List (String × List (String × Option (List Listener)))) : Bool :=
  L.all (fun p => tableFree lid p.2)

/-- No entry anywhere in the Subscription Table of the instance carries `lid`. -/
def lidFree (lid : String) (s : SState) : Bool :=
  listFree lid s.listeners

/-- `lid` occurs at most in the `(c, e)` subscriber list. -/
def lidOnlyAt (lid c e : String) (s : SState) : Bool :=
  s.listeners.all (fun p => p.2.all (fun q =>
    (decide (p.1 = c) && decide (q.1 = e)) || entryFree lid q.2))

theorem jget_none_keys {α : Type} {l : List (String × α)} {k : String}
    (h : jget l k = none) : ∀ p ∈ l, p.1 ≠ k := by
  induction l with
  | nil => simp
  | cons q rest ih =>
    obtain ⟨k2, v2⟩ := q
    by_cases h2 : k2 = k
    · simp [jget, h2] at h
    · intro p hp
      rcases List.mem_cons.mp hp with h3 | h3
      · subst h3
        exact h2
      · simp [jget, h2] at h
        exact ih h p h3

theorem entryFree_spec {lid : String} {l : List Listener}
    (h : entryFree lid (some l) = true) : ∀ x ∈ l, x.id ≠ lid := by
  simp [entryFree, List.all_eq_true] at h
  exact h

theorem entryFree_filter_subset {lid l0 : String} {l : List Listener}
    (h : entryFree lid (some l) = true) :
    entryFree lid (some (l.filter (fun x => decide (x.id ≠ l0)))) = true := by
  have h2 := entryFree_spec h
  unfold entryFree
  rw [List.all_eq_true]
  intro x hx
  exact decide_eq_true (h2 x (List.mem_of_mem_filter hx))

theorem entryFree_filter_self (lid : String) (l : List Listener) :
    entryFree lid (some (l.filter (fun x => decide (x.id ≠ lid)))) = true := by
  unfold entryFree
  rw [List.all_eq_true]
  intro x hx
  exact List.of_mem_filter (p := fun y : Listener => decide (y.id ≠ lid)) hx

theorem tableFree_jget {lid : String} {t : List (String × Option (List Listener))}
    (h : tableFree lid t = true) {e : String} {v : Option (List Listener)}
    (he : jget t e = some v) : entryFree lid v = true := by
  simp [tableFree, List.all_eq_true] at h
  exact h e v (jget_mem he)

theorem listFree_jget {lid : String}
    {L : List (String × List (String × Option (List Listener)))}
    (h : listFree lid L = true) {c : String}
    {t : List (String × Option (List Listener))}
    (hc : jget L c = some t) : tableFree lid t = true := by
  simp [listFree, List.all_eq_true] at h
  exact h c t (jget_mem hc)

theorem tableFree_jset {lid : String} {t : List (String × Option (List Listener))}
    (ht : tableFree lid t = true) {e : String} {v : Option (List Listener)}
    (hv : entryFree lid v = true) : tableFree lid (jset t e v) = true := by
  simp [tableFree, List.all_eq_true] at ht ⊢
  intro e2 v2 hmem
  rcases mem_jset hmem with h | h
  · exact ht e2 v2 h
  · rw [Prod.mk.injEq] at h
    rw [h.2]
    exact hv

theorem listFree_jset {lid : String}
    {L : List (String × List (String × Option (List Listener)))}
    (hL : listFree lid L = true) {c : String}
    {T : List (String × Option (List Listener))}
    (hT : tableFree lid T = true) : listFree lid (jset L c T) = true := by
  simp [listFree, List.all_eq_true] at hL ⊢
  intro c2 T2 hmem
  rcases mem_jset hmem with h | h
  · exact hL c2 T2 h
  · rw [Prod.mk.injEq] at h
    rw [h.2]
    exact hT

theorem listFree_lazyInit {lid : String}
    {L : List (String × List (String × Option (List Listener)))}
    (hL : listFree lid L = true) (c : String) :
    listFree lid (lazyInit L c) = true := by
  unfold lazyInit
  cases h : jget L c with
  | none => exact listFree_jset hL (by simp [tableFree])
  | some t => exact hL

/-- The Notifier emits no invocation tagged with `lid` when the Subscription
Table is `lid`-free. -/
theorem broadcast_lid_free {lid : String} {s : SState}
    (h : lidFree lid s = true) (rid ev c : String) :
    ∀ n ∈ broadcastChange s rid ev c, n.lid ≠ lid := by
  intro n hn
  unfold broadcastChange at hn
  cases hc : jget s.listeners c with
  | none =>
    rw [hc] at hn
    simp [jget] at hn
  | some t =>
    rw [hc] at hn
    simp only [Option.getD_some] at hn
    cases he : jget t ev with
    | none => rw [he] at hn; simp at hn
    | some v =>
      cases v with
      | none => rw [he] at hn; simp at hn
      | some callbacks =>
        rw [he] at hn
        have hfree := entryFree_spec
          (tableFree_jget (listFree_jget h hc) he)
        simp at hn
        obtain ⟨-, a, ha, han⟩ := hn
        rw [← han]
        exact hfree a ha

theorem unsubscribe_eq_noctx (s : SState) (e l0 c : String)
    (hc : jget s.listeners c = none) : unsubscribe s e l0 c = s := by
  simp [unsubscribe, hc]

theorem unsubscribe_eq_arr (s : SState) (e l0 c : String)
    (t : List (String × Option (List Listener))) (l : List Listener)
    (hc : jget s.listeners c = some t) (he : jget t e = some (some l)) :
    unsubscribe s e l0 c =
      { s with
        listeners :=
          jset s.listeners c
            (jset t e (some (l.filter (fun x => decide (x.id ≠ l0))))) } := by
  simp [unsubscribe, hc, he]

theorem unsubscribe_eq_absent (s : SState) (e l0 c : String)
    (t : List (String × Option (List Listener)))
    (hc : jget s.listeners c = some t) (he : jget t e = none) :
    unsubscribe s e l0 c =
      { s with listeners := jset s.listeners c (jset t e none) } := by
  simp [unsubscribe, hc, he]

theorem unsubscribe_eq_undef (s : SState) (e l0 c : String)
    (t : List (String × Option (List Listener)))
    (hc : jget s.listeners c = some t) (he : jget t e = some none) :
    unsubscribe s e l0 c =
      { s with listeners := jset s.listeners c (jset t e none) } := by
  simp [unsubscribe, hc, he]

theorem unsubscribe_gc (s : SState) (e l0 c : String) :
    (unsubscribe s e l0 c).gc = s.gc := by
  cases hc : jget s.listeners c with
  | none => rw [unsubscribe_eq_noctx s e l0 c hc]
  | some t =>
    cases he : jget t e with
    | none => rw [unsubscribe_eq_absent s e l0 c t hc he]
    | some v =>
      cases v with
      | none => rw [unsubscribe_eq_undef s e l0 c t hc he]
      | some l => rw [unsubscribe_eq_arr s e l0 c t l hc he]

theorem lidFree_unsubscribe (lid : String) (s : SState) (e l0 c : String)
    (h : lidFree lid s = true) :
    lidFree lid (unsubscribe s e l0 c) = true := by
  cases hc : jget s.listeners c with
  | none => rw [unsubscribe_eq_noctx s e l0 c hc]; exact h
  | some t =>
    have ht : tableFree lid t = true := listFree_jget h hc
    cases he : jget t e with
    | none =>
      rw [unsubscribe_eq_absent s e l0 c t hc he]
      exact listFree_jset h (tableFree_jset ht (by simp [entryFree]))
    | some v =>
      cases v with
      | none =>
        rw [unsubscribe_eq_undef s e l0 c t hc he]
        exact listFree_jset h (tableFree_jset ht (by simp [entryFree]))
      | some l =>
        rw [unsubscribe_eq_arr s e l0 c t l hc he]
        exact listFree_jset h
          (tableFree_jset ht (entryFree_filter_subset (tableFree_jget ht he)))

theorem lidFree_subscribe (gs : Nat → String) (lid : String) (s : SState)
    (e cb c : String) (h : lidFree lid s = true) (hfresh : gs s.gc ≠ lid) :
    lidFree lid (subscribe gs s e cb c).1 = true := by
  by_cases hv : isValidEvent s.events e = true
  · have hct : tableFree lid ((jget s.listeners c).getD []) = true := by
      cases hc : jget s.listeners c with
      | none => simp [tableFree]
      | some t => exact listFree_jget h hc
    have hnew : entryFree lid
        (some (match jget ((jget s.listeners c).getD []) e with
               | some (some l) => l ++ [{ id := gs s.gc, callback := cb }]
               | _ => [{ id := gs s.gc, callback := cb }])) = true := by
      cases he : jget ((jget s.listeners c).getD []) e with
      | none => simp [entryFree, hfresh]
      | some v =>
        cases v with
        | none => simp [entryFree, hfresh]
        | some l =>
          have := entryFree_spec (tableFree_jget hct he)
          simp [entryFree, List.all_eq_true, hfresh]
          exact this
    have : (subscribe gs s e cb c).1.listeners =
        jset s.listeners c
          (jset ((jget s.listeners c).getD []) e
            (some (match jget ((jget s.listeners c).getD []) e with
                   | some (some l) => l ++ [{ id := gs s.gc, callback := cb }]
                   | _ => [{ id := gs s.gc, callback := cb }]))) := by
      simp [subscribe, hv]
    unfold lidFree
    rw [this]
    exact listFree_jset h (tableFree_jset hct hnew)
  · have hfalse : isValidEvent s.events e = false := by
      cases hb : isValidEvent s.events e
      · rfl
      · exact absurd hb hv
    simp [subscribe, hfalse]
    exact h

theorem subscribe_gc (gs : Nat → String) (s : SState) (e cb c : String) :
    s.gc ≤ (subscribe gs s e cb c).1.gc := by
  by_cases hv : isValidEvent s.events e = true
  · simp [subscribe, hv]
  · have hfalse : isValidEvent s.events e = false := by
      cases hb : isValidEvent s.events e
      · rfl
      · exact absurd hb hv
    simp [subscribe, hfalse]

/-- One operation preserves `lid`-freedom and the guid counter, and emits no
invocation tagged `lid`, provided future guids avoid `lid`. -/
theorem step_facts (gs : Nat → String) (lid : String) (s : SState) (op : Op)
    (h1 : lidFree lid s = true) (h2 : ∀ k, s.gc ≤ k → gs k ≠ lid) :
    lidFree lid (step gs s op).1 = true ∧ s.gc ≤ (step gs s op).1.gc ∧
      ∀ n ∈ (step gs s op).2, n.lid ≠ lid := by
  cases op with
  | readOne id c => exact ⟨h1, le_refl _, by simp [step]⟩
  | readAll c => exact ⟨h1, le_refl _, by simp [step]⟩
  | unsub e l0 c =>
    refine ⟨lidFree_unsubscribe lid s e l0 c h1, ?_, by simp [step]⟩
    rw [step, unsubscribe_gc]
  | sub e cb c =>
    exact ⟨lidFree_subscribe gs lid s e cb c h1 (h2 s.gc (le_refl _)),
      subscribe_gc gs s e cb c, by simp [step]⟩
  | write m now c =>
    cases m with
    | none => exact ⟨h1, le_refl _, by simp [step, addOrUpdate]⟩
    | some m0 =>
      obtain ⟨w, hw, hret, hraised, hms, hls, hev, hgc, hnot⟩ :=
        addOrUpdate_some_ok gs now s m0 c
      have hstep : step gs s (Op.write (some m0) now c) = (w.state, w.notifs) := by
        simp [step, hw]
      have hwfree : lidFree lid w.state = true := by
        unfold lidFree
        rw [hls]
        exact listFree_lazyInit h1 c
      refine ⟨by rw [hstep]; exact hwfree, ?_, ?_⟩
      · rw [hstep, hgc]
        unfold gcAfter
        by_cases hb : ((jget m0 "id").getD JSVal.undef).truthy <;> simp [hb]
      · rw [hstep]
        rw [hnot]
        exact broadcast_lid_free hwfree (resolvedId gs s m0) (eventOf gs s m0 c) c

/-- No operation sequence run from a `lid`-free state with `lid`-avoiding
fresh guids ever invokes a callback under listener id `lid`. -/
theorem run_no_lid (gs : Nat → String) (lid : String) :
    ∀ (ops : List Op) (s : SState), lidFree lid s = true →
      (∀ k, s.gc ≤ k → gs k ≠ lid) →
      ∀ n ∈ (run gs s ops).2, n.lid ≠ lid := by
  intro ops
  induction ops with
  | nil => intro s h1 h2 n hn; simp [run] at hn
  | cons op rest ih =>
    intro s h1 h2 n hn
    obtain ⟨hf, hg, hnot⟩ := step_facts gs lid s op h1 h2
    simp only [run, List.mem_append] at hn
    rcases hn with hn | hn
    · exact hnot n hn
    · exact ih (step gs s op).1 hf (fun k hk => h2 k (le_trans hg hk)) n hn

/-- Unsubscribing `lid` from `(c, e)` leaves the whole table `lid`-free when
`lid` occurred nowhere else (the guid contract for ids minted by
`subscribe`), given the no-duplicate-keys shape every reachable state
has. -/
theorem lidFree_after_unsubscribe_self (lid c e : String) (s : SState)
    (hnd1 : (jkeys s.listeners).Nodup)
    (hnd2 : ∀ p ∈ s.listeners, (jkeys p.2).Nodup)
    (honly : lidOnlyAt lid c e s = true) :
    lidFree lid (unsubscribe s e lid c) = true := by
  have honly2 : ∀ p ∈ s.listeners, ∀ q ∈ p.2,
      (p.1 = c ∧ q.1 = e) ∨ entryFree lid q.2 = true := by
    intro p hp q hq
    simp [lidOnlyAt, List.all_eq_true] at honly
    rcases honly p.1 p.2 hp q.1 q.2 hq with h | h
    · exact Or.inl h
    · exact Or.inr h
  cases hc : jget s.listeners c with
  | none =>
    rw [unsubscribe_eq_noctx s e lid c hc]
    have hkeys := jget_none_keys hc
    unfold lidFree listFree
    rw [List.all_eq_true]
    intro p hp
    unfold tableFree
    rw [List.all_eq_true]
    intro q hq
    rcases honly2 p hp q hq with h | h
    · exact absurd h.1 (hkeys p hp)
    · exact h
  | some t =>
    have hpt : (c, t) ∈ s.listeners := jget_mem hc
    have hndt : (jkeys t).Nodup := hnd2 (c, t) hpt
    have hfree_v : ∀ v, jget t e = some v →
        (∀ l, v = some l → entryFree lid
          (some (l.filter (fun x => decide (x.id ≠ lid)))) = true) := by
      intro v _ l _
      exact entryFree_filter_self lid l
    have htable : ∀ v2, tableFree lid (jset t e v2) = true →
        listFree lid (jset s.listeners c (jset t e v2)) = true := by
      intro v2 hv2
      unfold listFree
      rw [List.all_eq_true]
      intro p hp
      rcases mem_jset_nodup hnd1 hp with ⟨hpmem, hpne⟩ | hpe
      · unfold tableFree
        rw [List.all_eq_true]
        intro q hq
        rcases honly2 p hpmem q hq with h | h
        · exact absurd h.1 hpne
        · exact h
      · rw [hpe]
        exact hv2
    have htfree : ∀ v2, entryFree lid v2 = true →
        tableFree lid (jset t e v2) = true := by
      intro v2 hv2
      unfold tableFree
      rw [List.all_eq_true]
      intro q hq
      rcases mem_jset_nodup hndt hq with ⟨hqmem, hqne⟩ | hqe
      · rcases honly2 (c, t) hpt q hqmem with h | h
        · exact absurd h.2 hqne
        · exact h
      · rw [hqe]
        exact hv2
    cases he : jget t e with
    | none =>
      rw [unsubscribe_eq_absent s e lid c t hc he]
      exact htable none (htfree none (by simp [entryFree]))
    | some v =>
      cases v with
      | none =>
        rw [unsubscribe_eq_undef s e lid c t hc he]
        exact htable none (htfree none (by simp [entryFree]))
      | some l =>
        rw [unsubscribe_eq_arr s e lid c t l hc he]
        exact htable _ (htfree _ (entryFree_filter_self lid l))

theorem subsOfL_jset_self
    (L : List (String × List (String × Option (List Listener))))
    (T : List (String × Option (List Listener))) (c e : String) :
    subsOfL (jset L c T) c e =
      (match jget T e with | some (some l) => l | _ => []) := by
  unfold subsOfL
  rw [jget_jset_self]
  rfl

theorem subsOfL_jset_ne
    (L : List (String × List (String × Option (List Listener))))
    (T : List (String × Option (List Listener))) (c c2 e2 : String)
    (h : c2 ≠ c) : subsOfL (jset L c T) c2 e2 = subsOfL L c2 e2 := by
  unfold subsOfL
  rw [jget_jset_ne _ _ _ _ h]

/-- C9: after invoking `unsubscribe()` on the disposer, the matching entry is
removed from the `(context, eventName)` list while entries with other
subscriber ids stay in place (and, per C2, keep being notified); with no
subscriber table for the context the call is a no-op, and with no array
under the event it assigns `undefined` instead of erroring.  Finally, when
the unsubscribed id occurs nowhere else (the guid contract) and future
guids avoid it, no subsequent operation sequence ever invokes a callback
under that subscription again. -/
theorem unsubscribe_stops_callbacks (gs : Nat → String) (s : SState)
    (e lid c : String) :
    (jget s.listeners c = none → unsubscribe s e lid c = s) ∧
    (∀ t l, jget s.listeners c = some t → jget t e = some (some l) →
       (unsubscribe s e lid c).listeners =
         jset s.listeners c
           (jset t e (some (l.filter (fun x => decide (x.id ≠ lid)))))) ∧
    (∀ t, jget s.listeners c = some t → (∀ l, jget t e ≠ some (some l)) →
       (unsubscribe s e lid c).listeners =
         jset s.listeners c (jset t e none)) ∧
    subscribersOf (unsubscribe s e lid c) c e =
      (subscribersOf s c e).filter (fun x => decide (x.id ≠ lid)) ∧
    (∀ c2 e2, c2 ≠ c ∨ e2 ≠ e →
       subscribersOf (unsubscribe s e lid c) c2 e2 = subscribersOf s c2 e2) ∧
    ((jkeys s.listeners).Nodup →
     (∀ p ∈ s.listeners, (jkeys p.2).Nodup) →
     lidOnlyAt lid c e s = true →
     (∀ k, s.gc ≤ k → gs k ≠ lid) →
     ∀ ops, ∀ n ∈ (run gs (unsubscribe s e lid c) ops).2, n.lid ≠ lid) := by
  refine ⟨fun hc => unsubscribe_eq_noctx s e lid c hc, ?_, ?_, ?_, ?_, ?_⟩
  · intro t l hc he
    rw [unsubscribe_eq_arr s e lid c t l hc he]
  · intro t hc hne
    cases he : jget t e with
    | none => rw [unsubscribe_eq_absent s e lid c t hc he]
    | some v =>
      cases v with
      | none => rw [unsubscribe_eq_undef s e lid c t hc he]
      | some l => exact absurd he (hne l)
  · cases hc : jget s.listeners c with
    | none =>
      rw [unsubscribe_eq_noctx s e lid c hc]
      unfold subscribersOf subsOfL
      rw [hc]
      simp [jget]
    | some t =>
      cases he : jget t e with
      | none =>
        rw [unsubscribe_eq_absent s e lid c t hc he]
        show subsOfL (jset s.listeners c (jset t e none)) c e = _
        rw [subsOfL_jset_self, jget_jset_self]
        unfold subscribersOf subsOfL
        rw [hc]
        simp only [Option.getD_some]
        rw [he]
        rfl
      | some v =>
        cases v with
        | none =>
          rw [unsubscribe_eq_undef s e lid c t hc he]
          show subsOfL (jset s.listeners c (jset t e none)) c e = _
          rw [subsOfL_jset_self, jget_jset_self]
          unfold subscribersOf subsOfL
          rw [hc]
          simp only [Option.getD_some]
          rw [he]
          rfl
        | some l =>
          rw [unsubscribe_eq_arr s e lid c t l hc he]
          show subsOfL
            (jset s.listeners c
              (jset t e (some (l.filter (fun x => decide (x.id ≠ lid))))))
            c e = _
          rw [subsOfL_jset_self, jget_jset_self]
          unfold subscribersOf subsOfL
          rw [hc]
          simp only [Option.getD_some]
          rw [he]
  · intro c2 e2 hne
    cases hc : jget s.listeners c with
    | none => rw [unsubscribe_eq_noctx s e lid c hc]
    | some t =>
      have key : ∀ v2,
          subsOfL (jset s.listeners c (jset t e v2)) c2 e2 =
            subscribersOf s c2 e2 := by
        intro v2
        by_cases hcc : c2 = c
        · subst hcc
          have hee : e2 ≠ e := by
            rcases hne with h | h
            · exact absurd rfl h
            · exact h
          rw [subsOfL_jset_self, jget_jset_ne _ _ _ _ hee]
          unfold subscribersOf subsOfL
          rw [hc]
          simp only [Option.getD_some]
        · rw [subsOfL_jset_ne _ _ _ _ _ hcc]
          rfl
      cases he : jget t e with
      | none =>
        rw [unsubscribe_eq_absent s e lid c t hc he]
        exact key none
      | some v =>
        cases v with
        | none =>
          rw [unsubscribe_eq_undef s e lid c t hc he]
          exact key none
        | some l =>
          rw [unsubscribe_eq_arr s e lid c t l hc he]
          exact key _
  · intro hnd1 hnd2 honly hfresh ops n hn
    have hfree := lidFree_after_unsubscribe_self lid c e s hnd1 hnd2 honly
    have hgc := unsubscribe_gc s e lid c
    refine run_no_lid gs lid ops (unsubscribe s e lid c) hfree ?_ n hn
    intro k hk
    rw [hgc] at hk
    exact hfresh k hk

/-- The guid generator of the C9 witness: mints "guid-0" and "guid-1",
then "fresh" for every later counter value. -/
def gsW : Nat → String :=
  fun k => if k < 2 then "guid-" ++ toString k else "fresh"

/-- Two live subscriptions on the added event, ids "guid-0" and
"guid-1". -/
def sW : SState :=
  (subscribe gsW
    (subscribe gsW newService "event::measurement_added" "cbA" "all").1
    "event::measurement_added" "cbB" "all").1

/-- Witness for C9: after unsubscribing "guid-0", no operation sequence ever
invokes a callback under that subscription again. -/
theorem unsubscribe_stops_callbacks_witness :
    ∀ ops, ∀ n ∈
      (run gsW (unsubscribe sW "event::measurement_added" "guid-0" "all")
        ops).2, n.lid ≠ "guid-0" :=
  (unsubscribe_stops_callbacks gsW sW "event::measurement_added" "guid-0"
      "all").2.2.2.2.2
    (by decide) (by decide) (by decide)
    (fun k hk => by
      have h2 : ¬k < 2 := by
        have hk2 : (2 : Nat) ≤ k := hk
        omega
      simp [gsW, h2])

/-! ## Claim C10: the Event Registry is shared by reference -/

/-- A process with a heap of event-registry objects.  Cell 0 holds the
module-level `EVENTS` object of `MeasurementService.js`; each constructed
instance stores in `this.events` a reference (cell index) rather than a
copy, and the constructor always stores a reference to cell 0 — no other
cell is ever allocated by the source. -/
structure Process where
  cells : Nat → List (String × String)
  instanceRefs : List Nat

/-- Process start: the module object holds the two built-in events and no
instance exists yet. -/
def initProcess : Process :=
  { cells := fun _ => EVENTS, instanceRefs := [] }

/-- `new MeasurementService()`: `this.events = EVENTS` aliases the module
object (reference to cell 0). -/
def newInstance (p : Process) : Process :=
  { p with instanceRefs := p.instanceRefs ++ [0] }

/-- `registerEvent(eventName)` called on instance `i`: writes
`this.events[eventName] = "event::" + eventName` through the reference held by the
instance, mutating the shared cell in place. -/
def registerEventP (p : Process) (i : Nat) (name : String) : Process :=
  match p.instanceRefs.get? i with
  | none => p
  | some r =>
    { p with
      cells := fun n =>
        if n = r then jset (p.cells r) name ("event::" ++ name)
        else p.cells n }

/-- `getEvents()` on instance `i`: the shallow spread copy of the
referenced registry object (value-identical to the contents of the cell). -/
def getEventsP (p : Process) (i : Nat) : List (String × String) :=
  match p.instanceRefs.get? i with
  | none => []
  | some r => p.cells r

/-- `_isValidEvent` as evaluated by `subscribe` on instance `i`. -/
def isValidEventP (p : Process) (i : Nat) (e : String) : Bool :=
  isValidEvent (getEventsP p i) e

theorem isValidEvent_of_jget {ev : List (String × String)} {k v : String}
    (h : jget ev k = some v) : isValidEvent ev v = true := by
  have hm : v ∈ ev.map Prod.snd :=
    List.mem_map_of_mem Prod.snd (jget_mem h)
  unfold isValidEvent
  exact List.elem_eq_true_of_mem hm

/-- C10: the Event Registry is not per-instance state.  In any process
whose instances were all built by the constructor (every stored reference
is the module object, cell 0), calling `registerEvent(name)` on one
instance makes the token `event::name` appear in `getEvents()` of, and be
accepted by `subscribe`s validation on, every instance — those constructed
before the registration as well as one constructed after it. -/
theorem events_registry_shared (p : Process) (i : Nat) (name : String)
    (hall : ∀ r ∈ p.instanceRefs, r = 0)
    (hi : i < p.instanceRefs.length) :
    (∀ j, j < (registerEventP p i name).instanceRefs.length →
       jget (getEventsP (registerEventP p i name) j) name =
         some ("event::" ++ name) ∧
       isValidEventP (registerEventP p i name) j ("event::" ++ name) =
         true) ∧
    (jget (getEventsP (newInstance (registerEventP p i name))
         (registerEventP p i name).instanceRefs.length) name =
       some ("event::" ++ name) ∧
     isValidEventP (newInstance (registerEventP p i name))
         (registerEventP p i name).instanceRefs.length
         ("event::" ++ name) = true) := by
  have hri : p.instanceRefs.get? i = some (p.instanceRefs.get ⟨i, hi⟩) :=
    List.get?_eq_get hi
  have hr0 : p.instanceRefs.get ⟨i, hi⟩ = 0 :=
    hall _ (List.get_mem _ _ _)
  have hq : (registerEventP p i name).cells 0 =
      jset (p.cells 0) name ("event::" ++ name) := by
    unfold registerEventP
    rw [hri, hr0]
    simp
  have hrefs : (registerEventP p i name).instanceRefs = p.instanceRefs := by
    unfold registerEventP
    rw [hri]
  constructor
  · intro j hj
    rw [hrefs] at hj
    have hrj : p.instanceRefs.get? j = some (p.instanceRefs.get ⟨j, hj⟩) :=
      List.get?_eq_get hj
    have hrj0 : p.instanceRefs.get ⟨j, hj⟩ = 0 :=
      hall _ (List.get_mem _ _ _)
    have hget : getEventsP (registerEventP p i name) j =
        jset (p.cells 0) name ("event::" ++ name) := by
      unfold getEventsP
      rw [hrefs, hrj, hrj0]
      exact hq
    refine ⟨by rw [hget, jget_jset_self], ?_⟩
    unfold isValidEventP
    rw [hget]
    exact isValidEvent_of_jget (jget_jset_self _ _ _)
  · have hlen : (newInstance (registerEventP p i name)).instanceRefs.get?
        (registerEventP p i name).instanceRefs.length = some 0 := by
      unfold newInstance
      exact List.get?_concat_length _ _
    have hget : getEventsP (newInstance (registerEventP p i name))
        (registerEventP p i name).instanceRefs.length =
        jset (p.cells 0) name ("event::" ++ name) := by
      unfold getEventsP
      rw [hlen]
      exact hq
    refine ⟨by rw [hget, jget_jset_self], ?_⟩
    unfold isValidEventP
    rw [hget]
    exact isValidEvent_of_jget (jget_jset_self _ _ _)

/-- A process with two constructed instances. -/
def pEx : Process := newInstance (newInstance initProcess)

/-- Witness for C10: registering "custom" on the first of two instances
makes `event::custom` visible and subscribable on both, and on an instance
constructed afterwards. -/
theorem events_registry_shared_witness :
    (∀ r ∈ pEx.instanceRefs, r = 0) ∧ 0 < pEx.instanceRefs.length ∧
    ((∀ j, j < (registerEventP pEx 0 "custom").instanceRefs.length →
       jget (getEventsP (registerEventP pEx 0 "custom") j) "custom" =
         some ("event::" ++ "custom") ∧
       isValidEventP (registerEventP pEx 0 "custom") j
         ("event::" ++ "custom") = true) ∧
    (jget (getEventsP (newInstance (registerEventP pEx 0 "custom"))
         (registerEventP pEx 0 "custom").instanceRefs.length) "custom" =
       some ("event::" ++ "custom") ∧
     isValidEventP (newInstance (registerEventP pEx 0 "custom"))
         (registerEventP pEx 0 "custom").instanceRefs.length
         ("event::" ++ "custom") = true)) :=
  ⟨by decide, by decide,
   events_registry_shared pEx 0 "custom" (by decide) (by decide)⟩

end MeasurementServiceSpec
